import Mathlib

/-!
Verification of the metrics aggregation and derivation engine of the
Pokemon Investment Analyzer (src/python/analyzer.py and its line-identical
twin src/python/tcg_analyzer.py).

The eight signal providers perform network I/O and are treated as black
boxes, exactly as the spec prescribes: a provider outcome is either a
returned record or a raised exception (`none`).  The pure derivation core
(`compute_metrics` lines 639-741 of analyzer.py), the summary formatter
(lines 700-726), the chase-card dedup/sort/cap step (`get_top_chase_cards`
lines 425-439), and the sentiment classification tail (`analyze_sentiment`
lines 600-636) are embedded directly.

Modelling conventions:
- Python floats are modelled as exact rationals (`ℚ`); all prices and
  rates in this program arise from parsed decimal text and small-integer
  arithmetic.
- A Python dict key that is absent is modelled the same as a key bound to
  `None` (the derivation core reads every field through `.get`, so the two
  are indistinguishable to it).
- Python truthiness on numbers / strings / lists is translated explicitly
  (`≠ 0`, `≠ ""`, `≠ []`).
- `int(x)` on a non-negative value is truncation toward zero (`pyInt`);
  `f"{x:.2f}"` is 2-decimal fixed formatting with round-half-to-even
  (`fmt2`); `str(x)` on a float whose value is a short decimal prints the
  minimal decimal expansion (`pyFloatStr`).
-/

namespace PIA

/-- Entry of the chase-card list: a card name together with its observed
price (a Python float, modelled as an exact rational). -/
structure ChaseCard where
  name : String
  price : ℚ
deriving DecidableEq

/-- Record returned by the completed-sales provider `scrape_ebay_sales`:
`count_sold`, optional `avg_price`, and a bounded sample list of
(price, optional date) observations. -/
structure EbaySales where
  count_sold : ℕ
  avg_price : Option ℚ
  samples : List (ℚ × Option String)
deriving DecidableEq

/-- Record returned by the supply provider `scrape_tcgplayer_listings`. -/
structure SupplyResult where
  listings_count : Option ℕ
  sellers_count : Option ℕ
  error : Option String
deriving DecidableEq

/-- Record returned by the set-metadata provider `get_set_info`. -/
structure SetInfo where
  num_cards : Option ℕ
  release_date : Option String
  notes : Option String
  source : Option String
deriving DecidableEq

/-- Record returned by `get_top_chase_cards`: the ranked card list plus
`sum_top` and `avg_top` aggregates. -/
structure ChaseCardSet where
  top_cards : List ChaseCard
  sum_top : ℚ
  avg_top : Option ℚ
deriving DecidableEq

/-- Record returned by the population provider `get_psa_population`; the
derivation core only ever reads its `psa10` field. -/
structure PsaResult where
  psa10 : Option ℕ
deriving DecidableEq

/-- One reprint-rumor match found by `check_reprint_news`. -/
structure ReprintMatch where
  source : Option String
  text : String
deriving DecidableEq

/-- Record returned by the reprint-signal provider `check_reprint_news`.
The field `found_matches` models the dict key "matches" (`matches` is a
reserved word in Lean). -/
structure ReprintResult where
  warning : Bool
  found_matches : List ReprintMatch
  note : Option String
deriving DecidableEq

/-- Record returned by the sentiment provider `analyze_sentiment`. -/
structure SentimentResult where
  avg_polarity : Option ℚ
  classification : String
  sample : List String
deriving DecidableEq

/-- Outcome of one analysis run's provider calls.  For each provider,
`none` means the call raised an exception (which `compute_metrics` catches
at the call site); `some r` means the call returned record `r`.  The
population provider is a function of the queried card name because
`compute_metrics` chooses its argument itself. -/
structure ProviderOutcomes where
  box_price : Option (Option ℚ)
  ebay : Option EbaySales
  listings : Option SupplyResult
  info : Option SetInfo
  top : Option ChaseCardSet
  psa : String → Option PsaResult
  reprint : Option ReprintResult
  sentiment : Option SentimentResult

/-- Fallback for a failed `scrape_ebay_sales` call (analyzer.py line 652). -/
def ebayFallback : EbaySales := ⟨0, none, []⟩

/-- Fallback for a failed `scrape_tcgplayer_listings` call (line 657). -/
def listingsFallback : SupplyResult := ⟨none, none, none⟩

/-- Fallback for a failed `get_set_info` call (line 662). -/
def infoFallback : SetInfo := ⟨none, none, none, none⟩

/-- Fallback for a failed `get_top_chase_cards` call (line 667). -/
def topFallback : ChaseCardSet := ⟨[], 0, none⟩

/-- Fallback for a failed `get_psa_population` call (line 678). -/
def psaFallback : PsaResult := ⟨none⟩

/-- Fallback for a failed `check_reprint_news` call (line 683). -/
def reprintFallback : ReprintResult := ⟨false, [], some "check failed"⟩

/-- Fallback for a failed `analyze_sentiment` call (line 688). -/
def sentimentFallback : SentimentResult := ⟨none, "unknown", []⟩

/-- Python `int()` on a rational: truncation toward zero. -/
def pyInt (q : ℚ) : ℤ := q.num.tdiv q.den

/-- Round `num / den` (with `den > 0`) to the nearest integer, ties to
even — the rounding used by Python fixed-point formatting.  Implemented on
the numerator and denominator directly so that it evaluates by kernel
reduction. -/
def roundHalfEvenND (num : ℤ) (den : ℤ) : ℤ :=
  let f := num.fdiv den
  let rem := num - f * den
  if den < 2 * rem then f + 1
  else if 2 * rem < den then f
  else if f % 2 = 0 then f else f + 1

/-- Print a natural number below 100 with exactly two digits. -/
def twoDigits (n : ℕ) : String := if n < 10 then "0" ++ toString n else toString n

/-- Python `f"{x:.2f}"`: fixed formatting with two decimal places,
rounding half to even.  `q * 100` is taken as the unreduced fraction
`(q.num * 100) / q.den`. -/
def fmt2 (q : ℚ) : String :=
  let m := roundHalfEvenND (q.num * 100) (q.den : ℤ)
  let a := m.natAbs
  (if m < 0 then "-" else "") ++ toString (a / 100) ++ "." ++ twoDigits (a % 100)

/-- Python `str()` on a float whose value is a short terminating decimal:
the minimal decimal expansion, always with at least one digit after the
point (`str(50.0) == "50.0"`, `str(12.4) == "12.4"`).  Since `q` is in
lowest terms, `q` has a `k`-digit decimal tail exactly when `q.den`
divides `10 ^ k`. -/
def pyFloatStr (q : ℚ) : String :=
  match (List.range 18).find? (fun k => (10 : ℕ) ^ k % q.den == 0) with
  | some 0 => toString q.num ++ ".0"
  | some (k + 1) =>
    let n : ℤ := (q.num * (10 : ℤ) ^ (k + 1)).fdiv (q.den : ℤ)
    let s := toString n.natAbs
    let s2 := if s.length ≤ k + 1 then String.mk (List.replicate (k + 2 - s.length) '0') ++ s else s
    (if n < 0 then "-" else "") ++ s2.take (s2.length - (k + 1)) ++ "." ++ s2.drop (s2.length - (k + 1))
  | none => toString q.num ++ "/" ++ toString q.den

/-- Field values read by the summary-building block of `compute_metrics`
(analyzer.py lines 700-726). -/
structure SummaryInputs where
  box_price : Option ℚ
  weekly_sales : ℚ
  listings_count : ℕ
  days_to_clear : Option ℚ
  top_cards : List ChaseCard
  psa : Option PsaResult
  sentiment_classification : String
  reprint_warning : Bool
deriving DecidableEq

/-- Clause 1 (lines 702-708): `if box_price:` is Python truthiness, so a
price of exactly 0 takes the `else` branch. -/
def boxClause (f : SummaryInputs) : String :=
  match f.box_price with
  | some q => if q = 0 then "current box price N/A" else "current box price $" ++ fmt2 q
  | none => "current box price N/A"

/-- Clause 2 (line 710). -/
def weeklyClause (f : SummaryInputs) : String :=
  "~" ++ toString (pyInt f.weekly_sales) ++ " sold/week on eBay"

/-- Clause 3 (line 711). -/
def listingsClause (f : SummaryInputs) : String :=
  toString f.listings_count ++ " listings on market"

/-- Clause 4 (lines 712-715). -/
def daysClause (f : SummaryInputs) : String :=
  match f.days_to_clear with
  | none => "days-to-clear: N/A"
  | some d => "~" ++ toString (pyInt d) ++ " days to clear"

/-- Clause 5 (lines 717-719), emitted only when a chase card exists. -/
def topClause (f : SummaryInputs) : Option String :=
  match f.top_cards with
  | [] => none
  | c :: _ => some ("top card " ++ c.name ++ " ~$" ++ pyFloatStr c.price)

/-- Clause 6 (lines 720-721), emitted only when `psa` is a record whose
`psa10` is non-null. -/
def psaClause (f : SummaryInputs) : Option String :=
  match f.psa with
  | none => none
  | some r =>
    match r.psa10 with
    | none => none
    | some n => some ("PSA10 pop " ++ toString n)

/-- Clause 7 (line 723). -/
def sentimentClause (f : SummaryInputs) : String :=
  "sentiment: " ++ f.sentiment_classification

/-- Clause 8 (line 724). -/
def reprintClause (f : SummaryInputs) : String :=
  "reprint risk: " ++ (if f.reprint_warning then "HIGH" else "low")

/-- The `parts` list built by lines 701-724: four unconditional clauses,
the two conditional ones, then the sentiment and reprint clauses. -/
def summaryParts (f : SummaryInputs) : List String :=
  [boxClause f, weeklyClause f, listingsClause f, daysClause f]
    ++ (topClause f).toList ++ (psaClause f).toList
    ++ [sentimentClause f, reprintClause f]

/-- Python `", ".join`. -/
def joinComma : List String → String
  | [] => ""
  | [s] => s
  | s :: t :: rest => s ++ ", " ++ joinComma (t :: rest)

/-- Line 726: the summary string is the subject name, a colon, and the
comma-joined clause list. -/
def format_summary (name : String) (f : SummaryInputs) : String :=
  name ++ ": " ++ joinComma (summaryParts f)

/-- The dict returned by `compute_metrics` (lines 728-741). -/
structure MetricsReport where
  box_price : Option ℚ
  sold_count_30d : ℕ
  daily_sales : ℚ
  weekly_sales : ℚ
  listings_count : ℕ
  days_to_clear : Option ℚ
  top_chase : ChaseCardSet
  psa : Option PsaResult
  reprint : ReprintResult
  sentiment : SentimentResult
  set_info : SetInfo
  summary : String
deriving DecidableEq

/-- The derivation engine `compute_metrics` (analyzer.py lines 639-741) as
a function of the subject name and the provider outcomes.  Each provider
call site's try/except fallback is the corresponding `getD`; the
population lookup is performed only when a top chase card exists and its
name is truthy (lines 669-678). -/
def computeMetrics (set_name : String) (o : ProviderOutcomes) : MetricsReport :=
  let box_price : Option ℚ := match o.box_price with | some v => v | none => none
  let ebay := o.ebay.getD ebayFallback
  let listings := o.listings.getD listingsFallback
  let info := o.info.getD infoFallback
  let top := o.top.getD topFallback
  let top_card_name : Option String :=
    match top.top_cards with
    | [] => none
    | c :: _ => some c.name
  let psa : Option PsaResult :=
    match top_card_name with
    | none => none
    | some n => if n = "" then none else some ((o.psa n).getD psaFallback)
  let reprint := o.reprint.getD reprintFallback
  let sentiment := o.sentiment.getD sentimentFallback
  let sold_count_30d := ebay.count_sold
  let days_window : ℕ := 30
  let daily_sales : ℚ := if sold_count_30d ≠ 0 then (sold_count_30d : ℚ) / (days_window : ℚ) else 0
  let weekly_sales : ℚ := daily_sales * 7
  let listings_count : ℕ := listings.listings_count.getD 0
  let days_to_clear : Option ℚ :=
    if 0 < daily_sales then some ((listings_count : ℚ) / daily_sales) else none
  let f : SummaryInputs :=
    ⟨box_price, weekly_sales, listings_count, days_to_clear, top.top_cards, psa,
      sentiment.classification, reprint.warning⟩
  ⟨box_price, sold_count_30d, daily_sales, weekly_sales, listings_count, days_to_clear,
    top, psa, reprint, sentiment, info, format_summary set_name f⟩

/-- Outcome in which every provider call raises. -/
def allFailOutcomes : ProviderOutcomes :=
  ⟨none, none, none, none, none, fun _ => none, none, none⟩

/-- The fully degraded report: every field in its fallback/null state. -/
def fallbackReport (name : String) : MetricsReport :=
  ⟨none, 0, 0, 0, 0, none, topFallback, none, reprintFallback, sentimentFallback, infoFallback,
    name ++ ": " ++ "current box price N/A, ~0 sold/week on eBay, 0 listings on market, days-to-clear: N/A, sentiment: unknown, reprint risk: low"⟩

/-- One step of the dedup loop of `get_top_chase_cards` (analyzer.py lines
426-431).  The Python dict is modelled as an association list with unique
keys in insertion order: `dedup[n] = p` on a present key updates the entry
in place, on an absent key appends at the end.  The update fires exactly
when `p > dedup[n]` (values are never `None` here: every candidate price
comes from a successful `float()` parse). -/
def dedupStep (acc : List (String × ℚ)) (c : ChaseCard) : List (String × ℚ) :=
  if c.name ∈ acc.map Prod.fst then
    acc.map fun e => if e.1 = c.name ∧ e.2 < c.price then (e.1, c.price) else e
  else acc ++ [(c.name, c.price)]

/-- The dict `dedup` after the loop of lines 426-431: name-keyed maximum
prices, keys in first-seen candidate order. -/
def dedupPairs (cands : List ChaseCard) : List (String × ℚ) :=
  cands.foldl dedupStep []

/-- Rebuild a card record from a dedup entry (line 433). -/
def toCard (e : String × ℚ) : ChaseCard := ⟨e.1, e.2⟩

/-- The comparison under which `items.sort(key=price, reverse=True)`
sorts: `a` may precede `b` exactly when `a.price ≥ b.price`. -/
def priceDesc (a b : ChaseCard) : Prop := b.price ≤ a.price

instance : DecidableRel priceDesc := fun a b => inferInstanceAs (Decidable (b.price ≤ a.price))

instance : IsTotal ChaseCard priceDesc := ⟨fun a b => le_total b.price a.price⟩

instance : IsTrans ChaseCard priceDesc := ⟨fun _ _ _ hab hbc => le_trans hbc hab⟩

/-- The pure tail of `get_top_chase_cards` (analyzer.py lines 425-439)
given the scraped candidate list: dedup by name keeping the maximum price,
sort by price descending (Python `list.sort` is stable, i.e. it produces
the unique non-increasing stable arrangement — which is what a stable
insertion sort under `priceDesc` produces), cap to `top_n`, and aggregate
`sum_top` / `avg_top`. -/
def getTopChaseCards (cands : List ChaseCard) (top_n : ℕ) : ChaseCardSet :=
  let items := (dedupPairs cands).map toCard
  let sorted := List.insertionSort priceDesc items
  let top := sorted.take top_n
  let sum_top : ℚ := if top = [] then 0 else (top.map ChaseCard.price).sum
  ⟨top, sum_top, if top = [] then none else some (sum_top / (top.length : ℚ))⟩

/-- The sentiment scoring tail of `analyze_sentiment` (analyzer.py lines
600-636) given the collected texts and the polarity-scoring strategy
(TextBlob or the keyword heuristic — both produce exactly one polarity per
text, so the strategy is abstracted as a function). -/
def sentimentClassify (texts : List String) (polarity : String → ℚ) : SentimentResult :=
  let polarities := texts.map polarity
  let sample := texts.take 10
  match polarities with
  | [] => ⟨none, "no data", sample⟩
  | _ :: _ =>
    let avg := polarities.sum / (polarities.length : ℚ)
    ⟨some avg,
      if 3/10 < avg then "mostly positive"
      else if avg < -(3/10) then "mostly negative"
      else "mixed", sample⟩

/-- The summary-formatter field values that `compute_metrics` passes to
its summary-building block, as a function of the provider outcomes. -/
def reportInputs (o : ProviderOutcomes) : SummaryInputs :=
  let box_price : Option ℚ := match o.box_price with | some v => v | none => none
  let ebay := o.ebay.getD ebayFallback
  let listings := o.listings.getD listingsFallback
  let top := o.top.getD topFallback
  let top_card_name : Option String :=
    match top.top_cards with
    | [] => none
    | c :: _ => some c.name
  let psa : Option PsaResult :=
    match top_card_name with
    | none => none
    | some n => if n = "" then none else some ((o.psa n).getD psaFallback)
  let reprint := o.reprint.getD reprintFallback
  let sentiment := o.sentiment.getD sentimentFallback
  let sold_count_30d := ebay.count_sold
  let days_window : ℕ := 30
  let daily_sales : ℚ := if sold_count_30d ≠ 0 then (sold_count_30d : ℚ) / (days_window : ℚ) else 0
  let weekly_sales : ℚ := daily_sales * 7
  let listings_count : ℕ := listings.listings_count.getD 0
  let days_to_clear : Option ℚ :=
    if 0 < daily_sales then some ((listings_count : ℚ) / daily_sales) else none
  ⟨box_price, weekly_sales, listings_count, days_to_clear, top.top_cards, psa,
    sentiment.classification, reprint.warning⟩

/-- Provider outcomes mirroring the mocked providers of the repository's
`test_compute_metrics_with_mocks` test. -/
def mockOutcomes : ProviderOutcomes :=
  ⟨some (some 150), some ⟨14, some 140, []⟩, some ⟨some 28, none, none⟩,
    some ⟨none, none, none, none⟩, some ⟨[⟨"Top", 50⟩], 50, some 50⟩,
    fun _ => some ⟨some 10⟩, some ⟨false, [], none⟩, some ⟨some (mkRat 1 2), "mostly positive", []⟩⟩

lemma cm_sold (name : String) (o : ProviderOutcomes) :
    (computeMetrics name o).sold_count_30d = (o.ebay.getD ebayFallback).count_sold := rfl

lemma cm_daily (name : String) (o : ProviderOutcomes) :
    (computeMetrics name o).daily_sales =
      (if (o.ebay.getD ebayFallback).count_sold ≠ 0 then
        ((o.ebay.getD ebayFallback).count_sold : ℚ) / ((30 : ℕ) : ℚ) else 0) := rfl

lemma cm_weekly (name : String) (o : ProviderOutcomes) :
    (computeMetrics name o).weekly_sales = (computeMetrics name o).daily_sales * 7 := rfl

lemma cm_listings (name : String) (o : ProviderOutcomes) :
    (computeMetrics name o).listings_count =
      (o.listings.getD listingsFallback).listings_count.getD 0 := rfl

lemma cm_days_to_clear (name : String) (o : ProviderOutcomes) :
    (computeMetrics name o).days_to_clear =
      (if 0 < (computeMetrics name o).daily_sales then
        some (((computeMetrics name o).listings_count : ℚ) / (computeMetrics name o).daily_sales)
      else none) := rfl

lemma cm_summary (name : String) (o : ProviderOutcomes) :
    (computeMetrics name o).summary = format_summary name (reportInputs o) := rfl

lemma cm_reprint (name : String) (o : ProviderOutcomes) :
    (computeMetrics name o).reprint = o.reprint.getD reprintFallback := rfl

lemma summaryParts_split (f : SummaryInputs) :
    summaryParts f =
      ([boxClause f, weeklyClause f, listingsClause f, daysClause f]
        ++ (topClause f).toList ++ (psaClause f).toList ++ [sentimentClause f])
        ++ [reprintClause f] := by
  simp [summaryParts]

lemma joinComma_append_last :
    ∀ (l : List String) (s : String), ∃ t, joinComma (l ++ [s]) = t ++ s
  | [], s => ⟨"", by simp [joinComma]⟩
  | [a], s => ⟨a ++ ", ", by simp [joinComma, String.append_assoc]⟩
  | a :: b :: rest, s => by
    obtain ⟨t, ht⟩ := joinComma_append_last (b :: rest) s
    refine ⟨a ++ ", " ++ t, ?_⟩
    have hstep : joinComma ((a :: b :: rest) ++ [s]) = a ++ ", " ++ joinComma ((b :: rest) ++ [s]) :=
      rfl
    rw [hstep, ht]
    exact (String.append_assoc _ t s).symm

/-- C1: for every subject name and every combination of provider outcomes,
`compute_metrics` produces a `MetricsReport` whose summary string ends
with the reprint-risk clause; and when every provider fails, the report is
exactly the fully degraded fallback report (every field fallback/null, the
summary still the well-formed joined clause string). -/
theorem compute_metrics_total_and_fallback (name : String) (o : ProviderOutcomes) :
    (∃ t, (computeMetrics name o).summary =
        t ++ ("reprint risk: " ++ (if (computeMetrics name o).reprint.warning then "HIGH" else "low")))
    ∧ computeMetrics name allFailOutcomes = fallbackReport name := by
  constructor
  · obtain ⟨t, ht⟩ := joinComma_append_last
      ([boxClause (reportInputs o), weeklyClause (reportInputs o), listingsClause (reportInputs o),
        daysClause (reportInputs o)]
        ++ (topClause (reportInputs o)).toList ++ (psaClause (reportInputs o)).toList
        ++ [sentimentClause (reportInputs o)])
      (reprintClause (reportInputs o))
    refine ⟨name ++ ": " ++ t, ?_⟩
    rw [cm_summary]
    show name ++ ": " ++ joinComma (summaryParts (reportInputs o)) = _
    rw [summaryParts_split, ht, ← String.append_assoc]
    rfl
  · have h0 : (0 : ℚ) * 7 = 0 := zero_mul 7
    show (⟨none, 0, 0, 0 * 7, 0, none, topFallback, none, reprintFallback, sentimentFallback,
        infoFallback,
        format_summary name ⟨none, 0 * 7, 0, none, [], none, "unknown", false⟩⟩ : MetricsReport)
      = fallbackReport name
    rw [h0]
    show (⟨none, 0, 0, 0, 0, none, topFallback, none, reprintFallback, sentimentFallback,
        infoFallback,
        name ++ ": " ++ joinComma (summaryParts ⟨none, 0, 0, none, [], none, "unknown", false⟩)⟩
        : MetricsReport) = fallbackReport name
    have hjoin : joinComma (summaryParts ⟨none, 0, 0, none, [], none, "unknown", false⟩) =
        "current box price N/A, ~0 sold/week on eBay, 0 listings on market, days-to-clear: N/A, sentiment: unknown, reprint risk: low" := by
      decide
    rw [hjoin]
    rfl

/-- C2: the report's `daily_sales` is `count_sold / 30` whenever
`count_sold > 0` and `0.0` (not null — the field is not optional) when
`count_sold == 0`, in which case `weekly_sales` is `0.0` as well. -/
theorem daily_weekly_sales_spec (name : String) (o : ProviderOutcomes) :
    (0 < (computeMetrics name o).sold_count_30d →
      (computeMetrics name o).daily_sales = ((computeMetrics name o).sold_count_30d : ℚ) / 30)
    ∧ ((computeMetrics name o).sold_count_30d = 0 →
      (computeMetrics name o).daily_sales = 0 ∧ (computeMetrics name o).weekly_sales = 0) := by
  constructor
  · intro h
    rw [cm_sold] at h
    rw [cm_daily, cm_sold, if_pos (Nat.pos_iff_ne_zero.mp h)]
    norm_cast
  · intro h
    rw [cm_sold] at h
    have hd : (computeMetrics name o).daily_sales = 0 := by
      rw [cm_daily, h]
      simp
    exact ⟨hd, by rw [cm_weekly, hd, zero_mul]⟩

/-- Witness for C2: at the mocked providers `daily_sales = 14/30`, and at
the all-fail outcome both rates are zero. -/
theorem daily_weekly_sales_spec_witness :
    (computeMetrics "Test Set" mockOutcomes).daily_sales = 14 / 30
    ∧ (computeMetrics "Test Set" allFailOutcomes).daily_sales = 0
    ∧ (computeMetrics "Test Set" allFailOutcomes).weekly_sales = 0 := by
  refine ⟨?_, ?_, ?_⟩
  · have hs : (computeMetrics "Test Set" mockOutcomes).sold_count_30d = 14 := rfl
    have h := (daily_weekly_sales_spec "Test Set" mockOutcomes).1 (by rw [hs]; norm_num)
    rw [h, hs]
    norm_num
  · exact ((daily_weekly_sales_spec "Test Set" allFailOutcomes).2 rfl).1
  · exact ((daily_weekly_sales_spec "Test Set" allFailOutcomes).2 rfl).2

/-- C3: `days_to_clear` is non-null exactly when `daily_sales > 0`, and
then equals `listings_count / daily_sales` (with a null listing count
already mapped to 0 by the engine). -/
theorem days_to_clear_spec (name : String) (o : ProviderOutcomes) :
    ((computeMetrics name o).days_to_clear.isSome ↔ 0 < (computeMetrics name o).daily_sales)
    ∧ (0 < (computeMetrics name o).daily_sales →
      (computeMetrics name o).days_to_clear =
        some (((computeMetrics name o).listings_count : ℚ) / (computeMetrics name o).daily_sales)) := by
  constructor
  · rw [cm_days_to_clear]
    by_cases h : 0 < (computeMetrics name o).daily_sales
    · rw [if_pos h]; simp [h]
    · rw [if_neg h]; simp [h]
  · intro h
    rw [cm_days_to_clear, if_pos h]

/-- Witness for C3: the end-to-end mocked scenario `count_sold = 14`,
`listings_count = 28` yields `days_to_clear = 28 / (14/30) = 60`. -/
theorem days_to_clear_spec_witness :
    0 < (computeMetrics "Test Set" mockOutcomes).daily_sales
    ∧ (computeMetrics "Test Set" mockOutcomes).days_to_clear = some 60 := by
  have hc : (mockOutcomes.ebay.getD ebayFallback).count_sold = 14 := rfl
  have hd : (computeMetrics "Test Set" mockOutcomes).daily_sales = 14 / 30 := by
    rw [cm_daily, hc]
    norm_num
  have hpos : 0 < (computeMetrics "Test Set" mockOutcomes).daily_sales := by
    rw [hd]; norm_num
  refine ⟨hpos, ?_⟩
  rw [(days_to_clear_spec "Test Set" mockOutcomes).2 hpos, hd]
  norm_num [show (computeMetrics "Test Set" mockOutcomes).listings_count = 28 from rfl]

/-- C8: `compute_metrics` is a pure function of the subject name and the
provider outputs — two invocations on identical provider results produce
identical reports, every field (including the summary string) equal.  In
the embedding this holds by construction: the engine reads nothing but its
arguments and builds a fresh report. -/
theorem compute_metrics_pure (name : String) (o₁ o₂ : ProviderOutcomes) (h : o₁ = o₂) :
    computeMetrics name o₁ = computeMetrics name o₂ := by rw [h]

/-- Witness for C8 at the mocked providers. -/
theorem compute_metrics_pure_witness :
    computeMetrics "Test Set" mockOutcomes = computeMetrics "Test Set" mockOutcomes :=
  compute_metrics_pure "Test Set" mockOutcomes mockOutcomes rfl

/-- C9: the report's `weekly_sales` is unconditionally `daily_sales * 7`,
hence `7 * count_sold / 30` whenever `count_sold > 0`. -/
theorem weekly_sales_spec (name : String) (o : ProviderOutcomes) :
    (computeMetrics name o).weekly_sales = 7 * (computeMetrics name o).daily_sales
    ∧ (0 < (computeMetrics name o).sold_count_30d →
      (computeMetrics name o).weekly_sales = 7 * ((computeMetrics name o).sold_count_30d : ℚ) / 30) := by
  constructor
  · rw [cm_weekly, mul_comm]
  · intro h
    rw [cm_sold] at h
    rw [cm_weekly, cm_daily, cm_sold, if_pos (Nat.pos_iff_ne_zero.mp h)]
    push_cast
    ring

/-- Witness for C9: at the mocked providers `weekly_sales = 7 * 14 / 30`. -/
theorem weekly_sales_spec_witness :
    (computeMetrics "Test Set" mockOutcomes).weekly_sales = 7 * 14 / 30 := by
  have hs : (computeMetrics "Test Set" mockOutcomes).sold_count_30d = 14 := rfl
  have h := (weekly_sales_spec "Test Set" mockOutcomes).2 (by rw [hs]; norm_num)
  rw [h, hs]
  norm_num

set_option maxRecDepth 40000

/-- The summary-formatter field values of spec §8's clause-order scenario:
`box_price=150.0, weekly_sales=9.8, listings_count=28, days_to_clear=12.4,
top_cards=[("Top", 50.0)], psa10=10, sentiment "mostly positive", reprint
warning False`. -/
def c4Inputs : SummaryInputs :=
  ⟨some 150, mkRat 49 5, 28, some (mkRat 62 5), [⟨"Top", 50⟩], some ⟨some 10⟩,
    "mostly positive", false⟩

/-- C4: on the spec's fixed scenario the summary is exactly the required
string, and for every input the emitted clauses are the fixed-order clause
list (conditional clauses included exactly when their data is present),
comma-joined and prefixed by the subject name and a colon. -/
theorem summary_format_spec :
    format_summary "Test Set" c4Inputs =
      "Test Set: current box price $150.00, ~9 sold/week on eBay, 28 listings on market, ~12 days to clear, top card Top ~$50.0, PSA10 pop 10, sentiment: mostly positive, reprint risk: low"
    ∧ ∀ (name : String) (f : SummaryInputs),
      format_summary name f =
        name ++ ": " ++ joinComma
          ([boxClause f, weeklyClause f, listingsClause f, daysClause f]
            ++ (topClause f).toList ++ (psaClause f).toList
            ++ [sentimentClause f, reprintClause f]) := by
  exact ⟨by decide, fun name f => rfl⟩

/-- Summary-formatter inputs with a known box price of exactly 0. -/
def zeroPriceInputs : SummaryInputs := ⟨some 0, 0, 0, none, [], none, "no data", false⟩

/-- C7 counterexample: the claim asserts that the first clause is the
dollar-formatted price whenever a box price is known; but for the known
box price `0.0` (falsy in Python) the code emits the `N/A` clause
instead. -/
theorem box_price_clause_counterexample :
    zeroPriceInputs.box_price = some 0
    ∧ (summaryParts zeroPriceInputs).head? = some "current box price N/A"
    ∧ "current box price N/A" ≠ "current box price $" ++ fmt2 0 := by
  exact ⟨rfl, rfl, by decide⟩

lemma twoDigits_length : ∀ n : ℕ, n < 100 → (twoDigits n).length = 2 := by decide

lemma fmt2_shape (q : ℚ) (hq : 0 < q) :
    ∃ a : ℕ, fmt2 q = toString (a / 100) ++ "." ++ twoDigits (a % 100) := by
  have hnum : 0 ≤ q.num * 100 := by
    have := (Rat.num_pos.mpr hq).le
    positivity
  have hden : 0 ≤ (q.den : ℤ) := Int.ofNat_nonneg q.den
  have hf : 0 ≤ (q.num * 100).fdiv (q.den : ℤ) := Int.fdiv_nonneg hnum hden
  have hm : 0 ≤ roundHalfEvenND (q.num * 100) (q.den : ℤ) := by
    simp only [roundHalfEvenND]
    split_ifs <;> omega
  refine ⟨(roundHalfEvenND (q.num * 100) (q.den : ℤ)).natAbs, ?_⟩
  show (if roundHalfEvenND (q.num * 100) (q.den : ℤ) < 0 then "-" else "")
      ++ toString ((roundHalfEvenND (q.num * 100) (q.den : ℤ)).natAbs / 100) ++ "."
      ++ twoDigits ((roundHalfEvenND (q.num * 100) (q.den : ℤ)).natAbs % 100) = _
  rw [if_neg (not_lt.mpr hm)]
  rfl

/-- C7 amended: the first summary clause is the box-price clause; it reads
`"current box price $X.XX"` (dollar-prefixed, exactly two decimals)
whenever a nonzero box price is known, and `"current box price N/A"` when
the box price is unknown — or known but exactly `0.0`, which Python
truthiness sends to the `N/A` branch. -/
theorem box_price_clause_spec :
    (∀ f : SummaryInputs, (summaryParts f).head? = some (boxClause f))
    ∧ (∀ f : SummaryInputs, f.box_price = none ∨ f.box_price = some 0 →
      boxClause f = "current box price N/A")
    ∧ (∀ (f : SummaryInputs) (q : ℚ), f.box_price = some q → q ≠ 0 →
      boxClause f = "current box price $" ++ fmt2 q)
    ∧ (∀ q : ℚ, 0 < q → ∃ a : ℕ,
      fmt2 q = toString (a / 100) ++ "." ++ twoDigits (a % 100)
      ∧ (twoDigits (a % 100)).length = 2) := by
  refine ⟨fun f => rfl, ?_, ?_, ?_⟩
  · rintro f (h | h) <;> simp [boxClause, h]
  · intro f q h hq
    simp [boxClause, h, hq]
  · intro q hq
    obtain ⟨a, ha⟩ := fmt2_shape q hq
    exact ⟨a, ha, twoDigits_length _ (Nat.mod_lt _ (by norm_num))⟩

/-- Witness for C7 (amended): a known price of 150 yields the two-decimal
dollar clause, the all-null inputs yield the `N/A` clause. -/
theorem box_price_clause_spec_witness :
    boxClause c4Inputs = "current box price $150.00"
    ∧ boxClause ⟨none, 0, 0, none, [], none, "unknown", false⟩ = "current box price N/A" := by
  constructor
  · have h := box_price_clause_spec.2.2.1 c4Inputs 150 rfl (by norm_num)
    rw [h]
    decide
  · exact box_price_clause_spec.2.1 ⟨none, 0, 0, none, [], none, "unknown", false⟩ (Or.inl rfl)

/-- C10: with at least one collected text, the classification is
`"mostly positive"` exactly when the average polarity exceeds 3/10,
`"mostly negative"` exactly when it is below -3/10, `"mixed"` otherwise;
with no text the classification is `"no data"` and the average is null. -/
theorem analyze_sentiment_spec (texts : List String) (polarity : String → ℚ) :
    (texts = [] →
      (sentimentClassify texts polarity).classification = "no data"
      ∧ (sentimentClassify texts polarity).avg_polarity = none)
    ∧ (texts ≠ [] →
      (sentimentClassify texts polarity).avg_polarity =
        some ((texts.map polarity).sum / ((texts.map polarity).length : ℚ))
      ∧ ((sentimentClassify texts polarity).classification = "mostly positive"
        ↔ 3/10 < (texts.map polarity).sum / ((texts.map polarity).length : ℚ))
      ∧ ((sentimentClassify texts polarity).classification = "mostly negative"
        ↔ (texts.map polarity).sum / ((texts.map polarity).length : ℚ) < -(3/10))
      ∧ ((sentimentClassify texts polarity).classification = "mixed"
        ↔ (-(3/10) ≤ (texts.map polarity).sum / ((texts.map polarity).length : ℚ)
          ∧ (texts.map polarity).sum / ((texts.map polarity).length : ℚ) ≤ 3/10))) := by
  cases texts with
  | nil => exact ⟨fun _ => ⟨rfl, rfl⟩, fun h => absurd rfl h⟩
  | cons t ts =>
    refine ⟨fun h => by exact absurd h (List.cons_ne_nil t ts), fun _ => ?_⟩
    set avg := (((t :: ts).map polarity).sum / (((t :: ts).map polarity).length : ℚ)) with havg
    have hcls : (sentimentClassify (t :: ts) polarity).classification =
        (if 3/10 < avg then "mostly positive"
          else if avg < -(3/10) then "mostly negative" else "mixed") := rfl
    refine ⟨rfl, ?_, ?_, ?_⟩ <;> rw [hcls]
    · by_cases h1 : 3/10 < avg
      · rw [if_pos h1]
        exact iff_of_true rfl h1
      · rw [if_neg h1]
        split_ifs <;> exact iff_of_false (by decide) h1
    · by_cases h1 : 3/10 < avg
      · rw [if_pos h1]
        exact iff_of_false (by decide) (by intro h2; linarith)
      · rw [if_neg h1]
        by_cases h2 : avg < -(3/10)
        · rw [if_pos h2]
          exact iff_of_true rfl h2
        · rw [if_neg h2]
          exact iff_of_false (by decide) h2
    · by_cases h1 : 3/10 < avg
      · rw [if_pos h1]
        exact iff_of_false (by decide) (fun hc => absurd h1 (not_lt.mpr hc.2))
      · rw [if_neg h1]
        by_cases h2 : avg < -(3/10)
        · rw [if_pos h2]
          exact iff_of_false (by decide) (fun hc => absurd h2 (not_lt.mpr hc.1))
        · rw [if_neg h2]
          exact iff_of_true rfl ⟨not_lt.mp h2, not_lt.mp h1⟩

/-- Witness for C10: one uniformly positive text classifies as
`"mostly positive"`; no texts classify as `"no data"`. -/
theorem analyze_sentiment_spec_witness :
    (sentimentClassify ["good buy"] (fun _ => 1)).classification = "mostly positive"
    ∧ (sentimentClassify [] (fun _ => 1)).classification = "no data" := by
  constructor
  · have h := ((analyze_sentiment_spec ["good buy"] (fun _ => 1)).2 (by simp)).2.1
    apply h.mpr
    norm_num
  · exact ((analyze_sentiment_spec [] (fun _ => 1)).1 rfl).1

/-- Replace the population provider, leaving every other outcome fixed. -/
def setPsaProvider (o : ProviderOutcomes) (p : String → Option PsaResult) : ProviderOutcomes :=
  ⟨o.box_price, o.ebay, o.listings, o.info, o.top, p, o.reprint, o.sentiment⟩

lemma cm_psa (name : String) (o : ProviderOutcomes) :
    (computeMetrics name o).psa =
      (match (match (o.top.getD topFallback).top_cards with
        | [] => none
        | c :: _ => some c.name : Option String) with
      | none => none
      | some n => if n = "" then none else some ((o.psa n).getD psaFallback)) := rfl

/-- C6 counterexample: when no chase card exists (here: every provider
failed, so the chase-card list is empty) the report's population field is
left null, not set to a non-null "unavailable" record as the claim
asserts. -/
theorem population_unavailable_counterexample :
    (computeMetrics "Test Set" allFailOutcomes).top_chase.top_cards = []
    ∧ (computeMetrics "Test Set" allFailOutcomes).psa = none :=
  ⟨rfl, rfl⟩

/-- C6 amended: when the chase-card step produced no ranked card the
population lookup is not invoked (the report does not depend on the
population provider at all) and the report's population field is left
null; when at least one chase card exists (and its name is non-empty, the
condition Python truthiness actually checks) the lookup is invoked with
the top card's name. -/
theorem population_lookup_spec (name : String) (o : ProviderOutcomes) :
    ((o.top.getD topFallback).top_cards = [] →
      (computeMetrics name o).psa = none
      ∧ ∀ p : String → Option PsaResult,
        computeMetrics name (setPsaProvider o p) = computeMetrics name o)
    ∧ (∀ c cs, (o.top.getD topFallback).top_cards = c :: cs → c.name ≠ "" →
      (computeMetrics name o).psa = some ((o.psa c.name).getD psaFallback)) := by
  constructor
  · intro h
    constructor
    · rw [cm_psa, h]
    · intro p
      show computeMetrics name ⟨o.box_price, o.ebay, o.listings, o.info, o.top, p, o.reprint,
        o.sentiment⟩ = computeMetrics name o
      simp only [computeMetrics, reportInputs, format_summary]
      rw [h]
  · intro c cs h hc
    rw [cm_psa, h]
    simp [hc]

/-- Witness for C6 (amended): at the mocked providers the population of
the top card "Top" is looked up and lands in the report. -/
theorem population_lookup_spec_witness :
    (computeMetrics "Test Set" mockOutcomes).psa = some ⟨some 10⟩ := by
  have h := (population_lookup_spec "Test Set" mockOutcomes).2 ⟨"Top", 50⟩ [] rfl (by decide)
  rw [h]
  rfl

lemma keys_update (acc : List (String × ℚ)) (nm : String) (p : ℚ) :
    ((acc.map fun e => if e.1 = nm ∧ e.2 < p then (e.1, p) else e).map Prod.fst) =
      acc.map Prod.fst := by
  induction acc with
  | nil => rfl
  | cons a t ih =>
    simp only [List.map_cons, ih]
    congr 1
    split_ifs <;> rfl

lemma dedupStep_keys (acc : List (String × ℚ)) (c : ChaseCard) :
    (dedupStep acc c).map Prod.fst =
      (if c.name ∈ acc.map Prod.fst then acc.map Prod.fst else acc.map Prod.fst ++ [c.name]) := by
  unfold dedupStep
  split_ifs with h
  · exact keys_update acc c.name c.price
  · simp

lemma dedupStep_keys_nodup (acc : List (String × ℚ)) (c : ChaseCard)
    (h : (acc.map Prod.fst).Nodup) : ((dedupStep acc c).map Prod.fst).Nodup := by
  rw [dedupStep_keys]
  split_ifs with hmem
  · exact h
  · simp [List.nodup_append, h, hmem]

/-- First-match association lookup, the observable behaviour of a Python
dict read on the association-list model. -/
def lookupVal : List (String × ℚ) → String → Option ℚ
  | [], _ => none
  | e :: t, nm => if e.1 = nm then some e.2 else lookupVal t nm

lemma lookupVal_append (l₁ l₂ : List (String × ℚ)) (nm : String) :
    lookupVal (l₁ ++ l₂) nm =
      (match lookupVal l₁ nm with | some v => some v | none => lookupVal l₂ nm) := by
  induction l₁ with
  | nil => rfl
  | cons a t ih =>
    by_cases h : a.1 = nm
    · simp [lookupVal, h]
    · have h1 : lookupVal ((a :: t) ++ l₂) nm = lookupVal (t ++ l₂) nm := by
        rw [List.cons_append]
        simp [lookupVal, h]
      have h2 : lookupVal (a :: t) nm = lookupVal t nm := by simp [lookupVal, h]
      rw [h1, h2, ih]

lemma if_lt_eq_max (a b : ℚ) : (if a < b then b else a) = max a b := by
  rcases le_or_lt b a with h | h
  · rw [if_neg (not_lt.mpr h), max_eq_left h]
  · rw [if_pos h, max_eq_right h.le]

lemma lookupVal_update (acc : List (String × ℚ)) (nm : String) (p : ℚ) (nm2 : String) :
    lookupVal (acc.map fun e => if e.1 = nm ∧ e.2 < p then (e.1, p) else e) nm2 =
      (if nm2 = nm then (lookupVal acc nm2).map (fun v => max v p) else lookupVal acc nm2) := by
  induction acc with
  | nil => simp [lookupVal]
  | cons a t ih =>
    have hfst : (if a.1 = nm ∧ a.2 < p then (a.1, p) else a).1 = a.1 := by split_ifs <;> rfl
    simp only [List.map_cons, lookupVal, hfst]
    by_cases ha : a.1 = nm2
    · by_cases hb : nm2 = nm
      · have hcond2 : (a.1 = nm ∧ a.2 < p) ↔ a.2 < p :=
          ⟨fun hx => hx.2, fun hx => ⟨ha.trans hb, hx⟩⟩
        rw [if_pos ha, if_pos hb, if_pos ha]
        by_cases hlt : a.2 < p
        · rw [if_pos (hcond2.mpr hlt)]
          simp [max_eq_right hlt.le]
        · rw [if_neg fun hx => hlt (hcond2.mp hx)]
          simp [max_eq_left (not_lt.mp hlt)]
      · have hcond : ¬(a.1 = nm ∧ a.2 < p) := fun hx => hb (ha.symm.trans hx.1)
        rw [if_pos ha, if_neg hb, if_pos ha, if_neg hcond]
    · simp only [if_neg ha, ih]

lemma lookupVal_isSome (l : List (String × ℚ)) (nm : String) :
    (lookupVal l nm).isSome = true ↔ nm ∈ l.map Prod.fst := by
  induction l with
  | nil => simp [lookupVal]
  | cons a t ih =>
    by_cases h : a.1 = nm
    · simp [lookupVal, h]
    · simp [lookupVal, h, ih, Ne.symm h]

lemma lookupVal_of_mem (l : List (String × ℚ)) (e : String × ℚ)
    (hnd : (l.map Prod.fst).Nodup) (hm : e ∈ l) : lookupVal l e.1 = some e.2 := by
  induction l with
  | nil => cases hm
  | cons a t ih =>
    rw [List.map_cons] at hnd
    have hnd2 := List.nodup_cons.mp hnd
    rcases List.mem_cons.mp hm with rfl | hm2
    · simp [lookupVal]
    · have ha : ¬(a.1 = e.1) := by
        intro hx
        exact hnd2.1 (hx ▸ List.mem_map_of_mem Prod.fst hm2)
      simp only [lookupVal, if_neg ha]
      exact ih hnd2.2 hm2

/-- The maximum price observed among the candidates carrying a given
name, defined head-first to follow the dedup loop. -/
def maxPrice : List ChaseCard → String → Option ℚ
  | [], _ => none
  | c :: t, nm =>
    if c.name = nm then
      some (match maxPrice t nm with | none => c.price | some m => max c.price m)
    else maxPrice t nm

lemma maxPrice_isSome_of_mem (cands : List ChaseCard) (nm : String) (c : ChaseCard)
    (hc : c ∈ cands) (hn : c.name = nm) : (maxPrice cands nm).isSome = true := by
  induction cands with
  | nil => cases hc
  | cons a t ih =>
    rcases List.mem_cons.mp hc with rfl | hm
    · simp [maxPrice, hn]
    · by_cases ha : a.name = nm
      · simp [maxPrice, ha]
      · simpa [maxPrice, ha] using ih hm

lemma maxPrice_spec (cands : List ChaseCard) (nm : String) (p : ℚ)
    (h : maxPrice cands nm = some p) :
    (∃ c ∈ cands, c.name = nm ∧ c.price = p) ∧ ∀ c ∈ cands, c.name = nm → c.price ≤ p := by
  induction cands generalizing p with
  | nil => cases h
  | cons c t ih =>
    by_cases hc : c.name = nm
    · simp only [maxPrice, if_pos hc, Option.some.injEq] at h
      cases hmp : maxPrice t nm with
      | none =>
        rw [hmp] at h
        change c.price = p at h
        refine ⟨⟨c, List.mem_cons_self c t, hc, h⟩, ?_⟩
        intro c2 hc2 hn2
        rcases List.mem_cons.mp hc2 with rfl | hm2
        · exact h.le
        · have := maxPrice_isSome_of_mem t nm c2 hm2 hn2
          rw [hmp] at this
          cases this
      | some m =>
        rw [hmp] at h
        change max c.price m = p at h
        obtain ⟨⟨c0, hc0, hn0, hp0⟩, hbound⟩ := ih m hmp
        constructor
        · rcases max_choice c.price m with hmax | hmax
          · exact ⟨c, List.mem_cons_self c t, hc, by rw [← h, hmax]⟩
          · exact ⟨c0, List.mem_cons_of_mem c hc0, hn0, by rw [← h, hmax, hp0]⟩
        · intro c2 hc2 hn2
          rcases List.mem_cons.mp hc2 with rfl | hm2
          · rw [← h]
            exact le_max_left _ _
          · rw [← h]
            exact le_trans (hbound c2 hm2 hn2) (le_max_right _ _)
    · simp only [maxPrice, if_neg hc] at h
      obtain ⟨⟨c0, hc0, hn0, hp0⟩, hbound⟩ := ih p h
      refine ⟨⟨c0, List.mem_cons_of_mem c hc0, hn0, hp0⟩, ?_⟩
      intro c2 hc2 hn2
      rcases List.mem_cons.mp hc2 with rfl | hm2
      · exact absurd hn2 hc
      · exact hbound c2 hm2 hn2

/-- Combine an already-recorded value with the maximum of later
observations, as the dedup dict does. -/
def mergeMax : Option ℚ → Option ℚ → Option ℚ
  | none, b => b
  | some a, none => some a
  | some a, some b => some (max a b)

lemma lookup_dedup_fold (cands : List ChaseCard) :
    ∀ (acc : List (String × ℚ)) (nm : String),
      lookupVal (cands.foldl dedupStep acc) nm =
        mergeMax (lookupVal acc nm) (maxPrice cands nm) := by
  induction cands with
  | nil =>
    intro acc nm
    show lookupVal acc nm = mergeMax (lookupVal acc nm) (maxPrice [] nm)
    cases lookupVal acc nm <;> rfl
  | cons c t ih =>
    intro acc nm
    rw [List.foldl_cons, ih (dedupStep acc c) nm]
    unfold dedupStep
    by_cases hmem : c.name ∈ acc.map Prod.fst
    · rw [if_pos hmem, lookupVal_update]
      by_cases hnm : nm = c.name
      · rw [if_pos hnm]
        have hs : (lookupVal acc nm).isSome = true :=
          (lookupVal_isSome acc nm).mpr (hnm ▸ hmem)
        obtain ⟨v, hv⟩ := Option.isSome_iff_exists.mp hs
        rw [hv]
        simp only [maxPrice, if_pos hnm.symm, Option.map_some]
        cases hmp : maxPrice t nm with
        | none => simp [mergeMax]
        | some m => simp [mergeMax, max_assoc]
      · rw [if_neg hnm]
        have hcn : ¬c.name = nm := fun hx => hnm hx.symm
        have hmp2 : maxPrice (c :: t) nm = maxPrice t nm := by simp [maxPrice, hcn]
        rw [hmp2]
    · rw [if_neg hmem, lookupVal_append]
      by_cases hnm : nm = c.name
      · have hnone : lookupVal acc nm = none := by
          rcases hl : lookupVal acc nm with _ | v
          · rfl
          · exact absurd ((lookupVal_isSome acc nm).mp (by simp [hl])) (hnm ▸ hmem)
        rw [hnone]
        have hone : lookupVal [(c.name, c.price)] nm = some c.price := by
          simp [lookupVal, hnm.symm]
        rw [hone]
        simp only [maxPrice, if_pos hnm.symm]
        cases hmp : maxPrice t nm with
        | none => simp [mergeMax]
        | some m => simp [mergeMax]
      · have hcn : ¬c.name = nm := fun hx => hnm hx.symm
        have hone : lookupVal [(c.name, c.price)] nm = none := by
          simp [lookupVal, hcn]
        have hmp2 : maxPrice (c :: t) nm = maxPrice t nm := by simp [maxPrice, hcn]
        rw [hmp2]
        cases hacc : lookupVal acc nm with
        | none => rw [hone]
        | some v => rfl

lemma dedupPairs_keys_nodup (cands : List ChaseCard) :
    ((dedupPairs cands).map Prod.fst).Nodup := by
  have key : ∀ (l : List ChaseCard) (acc : List (String × ℚ)),
      (acc.map Prod.fst).Nodup → ((l.foldl dedupStep acc).map Prod.fst).Nodup := by
    intro l
    induction l with
    | nil => exact fun acc h => h
    | cons c t ih => exact fun acc h => ih _ (dedupStep_keys_nodup acc c h)
  exact key cands [] (by simp)

lemma dedupPairs_entry (cands : List ChaseCard) (e : String × ℚ)
    (he : e ∈ dedupPairs cands) : maxPrice cands e.1 = some e.2 := by
  have h1 : lookupVal (dedupPairs cands) e.1 = some e.2 :=
    lookupVal_of_mem _ e (dedupPairs_keys_nodup cands) he
  have h2 := lookup_dedup_fold cands [] e.1
  rw [dedupPairs] at h1
  rw [h1] at h2
  exact h2.symm

/-- The order in which the dedup dict lists its keys: candidate names in
first-seen order. -/
def firstSeenNames (cands : List ChaseCard) : List String :=
  cands.foldl (fun ns c => if c.name ∈ ns then ns else ns ++ [c.name]) []

lemma dedup_keys_foldl (cands : List ChaseCard) :
    ∀ acc : List (String × ℚ),
      (cands.foldl dedupStep acc).map Prod.fst =
        cands.foldl (fun ns c => if c.name ∈ ns then ns else ns ++ [c.name]) (acc.map Prod.fst) := by
  induction cands with
  | nil => intro acc; rfl
  | cons c t ih =>
    intro acc
    rw [List.foldl_cons, List.foldl_cons, ih, dedupStep_keys]

lemma dedupPairs_keys_firstSeen (cands : List ChaseCard) :
    (dedupPairs cands).map Prod.fst = firstSeenNames cands := by
  rw [dedupPairs, dedup_keys_foldl]
  rfl

section StableFilter

variable {α : Type} {r : α → α → Prop} [DecidableRel r]

lemma filter_orderedInsert_pos (p : α → Bool) (a : α) (hpa : p a = true) :
    ∀ m : List α, (∀ b ∈ m, p b = true → r a b) →
      (List.orderedInsert r a m).filter p = a :: m.filter p
  | [], _ => by simp [List.orderedInsert, hpa]
  | b :: m, h => by
    by_cases hr : r a b
    · simp [List.orderedInsert, if_pos hr, List.filter_cons, hpa]
    · have hpb : p b = false := by
        rcases hb : p b with _ | _
        · rfl
        · exact absurd (h b (List.mem_cons_self b m) hb) hr
      simp only [List.orderedInsert, if_neg hr, List.filter_cons, hpb]
      simp only [Bool.false_eq_true, if_neg (by simp : ¬False)]
      exact filter_orderedInsert_pos p a hpa m fun b2 hb2 => h b2 (List.mem_cons_of_mem _ hb2)

lemma filter_orderedInsert_neg (p : α → Bool) (a : α) (hpa : p a = false) :
    ∀ m : List α, (List.orderedInsert r a m).filter p = m.filter p
  | [] => by simp [List.orderedInsert, hpa]
  | b :: m => by
    by_cases hr : r a b
    · simp [List.orderedInsert, if_pos hr, List.filter_cons, hpa]
    · simp only [List.orderedInsert, if_neg hr, List.filter_cons]
      rw [filter_orderedInsert_neg p a hpa m]

lemma filter_insertionSort (p : α → Bool) (hp : ∀ x y, p x = true → p y = true → r x y) :
    ∀ l : List α, (List.insertionSort r l).filter p = l.filter p
  | [] => rfl
  | a :: l => by
    show (List.orderedInsert r a (List.insertionSort r l)).filter p = _
    by_cases hpa : p a = true
    · rw [filter_orderedInsert_pos p a hpa _ fun b _ hb => hp a b hpa hb,
        filter_insertionSort p hp l]
      simp [List.filter_cons, hpa]
    · have hpa2 : p a = false := by simpa using hpa
      rw [filter_orderedInsert_neg p a hpa2, filter_insertionSort p hp l]
      simp [List.filter_cons, hpa2]

end StableFilter

/-- C5: the ranked chase-card list has at most `top_n` entries, no
duplicate names, is sorted by price in descending order, each kept entry
carries the maximum price observed for its name among the candidates, and
price ties keep the dedup dict's first-seen insertion order (the filter of
any fixed price is a sublist of the first-seen-ordered dedup list, whose
key order is `firstSeenNames`). -/
theorem top_chase_cards_spec (cands : List ChaseCard) (n : ℕ) :
    (getTopChaseCards cands n).top_cards.length ≤ n
    ∧ ((getTopChaseCards cands n).top_cards.map ChaseCard.name).Nodup
    ∧ (getTopChaseCards cands n).top_cards.Pairwise (fun a b => b.price ≤ a.price)
    ∧ (∀ c ∈ (getTopChaseCards cands n).top_cards,
      (∃ c2 ∈ cands, c2.name = c.name ∧ c2.price = c.price)
      ∧ ∀ c2 ∈ cands, c2.name = c.name → c2.price ≤ c.price)
    ∧ ((dedupPairs cands).map Prod.fst = firstSeenNames cands)
    ∧ (∀ q : ℚ,
      List.Sublist
        ((getTopChaseCards cands n).top_cards.filter (fun c => decide (c.price = q)))
        (((dedupPairs cands).map toCard).filter (fun c => decide (c.price = q)))) := by
  have htop : (getTopChaseCards cands n).top_cards =
      (List.insertionSort priceDesc ((dedupPairs cands).map toCard)).take n := rfl
  have hnames : ((dedupPairs cands).map toCard).map ChaseCard.name =
      (dedupPairs cands).map Prod.fst := by
    rw [List.map_map]
    rfl
  have hperm : List.Perm (List.insertionSort priceDesc ((dedupPairs cands).map toCard))
      ((dedupPairs cands).map toCard) := List.perm_insertionSort _ _
  refine ⟨?_, ?_, ?_, ?_, dedupPairs_keys_firstSeen cands, ?_⟩
  · rw [htop]
    exact List.length_take_le n _
  · rw [htop]
    have hnd : (((dedupPairs cands).map toCard).map ChaseCard.name).Nodup := by
      rw [hnames]
      exact dedupPairs_keys_nodup cands
    have hnd2 : ((List.insertionSort priceDesc ((dedupPairs cands).map toCard)).map
        ChaseCard.name).Nodup := ((hperm.map ChaseCard.name).nodup_iff).mpr hnd
    exact hnd2.sublist ((List.take_sublist n _).map ChaseCard.name)
  · rw [htop]
    exact (List.sorted_insertionSort priceDesc _).sublist (List.take_sublist n _)
  · intro c hc
    rw [htop] at hc
    have hc2 : c ∈ (dedupPairs cands).map toCard :=
      hperm.mem_iff.mp ((List.take_sublist n _).mem hc)
    obtain ⟨e, he, hec⟩ := List.mem_map.mp hc2
    have hmax := dedupPairs_entry cands e he
    have hn : e.1 = c.name := by rw [← hec]; rfl
    have hp : e.2 = c.price := by rw [← hec]; rfl
    rw [hn, hp] at hmax
    exact maxPrice_spec cands c.name c.price hmax
  · intro q
    rw [htop]
    have heq : (List.insertionSort priceDesc ((dedupPairs cands).map toCard)).filter
        (fun c => decide (c.price = q)) =
        ((dedupPairs cands).map toCard).filter (fun c => decide (c.price = q)) := by
      apply filter_insertionSort
      intro x y hx hy
      have hx2 : x.price = q := of_decide_eq_true hx
      have hy2 : y.price = q := of_decide_eq_true hy
      show y.price ≤ x.price
      rw [hx2, hy2]
    rw [← heq]
    exact List.Sublist.filter _ (List.take_sublist n _)

/-- Candidate list of the spec's dedup example: name "A" seen at 10 then
50, name "B" at 30. -/
def cands2 : List ChaseCard := [⟨"A", 10⟩, ⟨"A", 50⟩, ⟨"B", 30⟩]

/-- Witness for C5: on the example candidates the kept entry for "A" has
the maximum observed price 50, dominating the discarded observation 10,
and the capped result is exactly `[("A", 50), ("B", 30)]`. -/
theorem top_chase_cards_spec_witness :
    (⟨"A", 50⟩ : ChaseCard) ∈ (getTopChaseCards cands2 2).top_cards
    ∧ (10 : ℚ) ≤ 50
    ∧ (getTopChaseCards cands2 2).top_cards = [⟨"A", 50⟩, ⟨"B", 30⟩] := by
  have hmem : (⟨"A", 50⟩ : ChaseCard) ∈ (getTopChaseCards cands2 2).top_cards := by decide
  refine ⟨hmem, ?_, by decide⟩
  exact ((top_chase_cards_spec cands2 2).2.2.2.1 ⟨"A", 50⟩ hmem).2 ⟨"A", 10⟩ (by decide) rfl

end PIA
